import Mathlib

/-!
Verification of the kata-containers guest agent RPC layer
(`src/agent/src/rpc.rs`) against its natural-language specification.

Rust strings are embedded as `List Char`; Rust's byte-oriented
`String::len` is embedded as `rustStrLen` (the summed UTF-8 encoding
sizes of the characters).  Fallible Rust code returning
`Result`/`anyhow::Result` is embedded as `Except` with structured error
values standing for the error messages of the source.  Stateful
handlers are embedded as pure functions over an explicit registry state;
the effects of external collaborators (the container runtime, the
kernel, the cgroup manager) are supplied as explicit parameters.
-/

namespace KataRpc

/-! ## Container id validation (`verify_cid`, rpc.rs lines 131-149)

The source checks, via `id.chars()`:
  first character `is_alphanumeric()`, `id.len() > 1` (`len` counts
  UTF-8 bytes), and every remaining character alphanumeric or one of
  `['.', '-', '_']`.  Rust's `char::is_alphanumeric` consults the
  Unicode tables; it is taken here as a parameter `isAlnum`, used
  identically by the embedded code and by the specification side of the
  claim, so every theorem below holds for the real Unicode predicate. -/

/-- UTF-8 encoding size of one character, as used by Rust's `String::len`. -/
def utf8Size (c : Char) : Nat :=
  if c.val < 0x80 then 1
  else if c.val < 0x800 then 2
  else if c.val < 0x10000 then 3
  else 4

/-- Rust `String::len`: the number of UTF-8 bytes of the string. -/
def rustStrLen (s : List Char) : Nat :=
  (s.map utf8Size).sum

/-- Error value standing for `anyhow!("invalid container ID: {:?}", id)`. -/
inductive VerifyErr
  | invalidContainerId (id : List Char)
deriving DecidableEq

/-- The `valid` boolean bound in `verify_cid` (rpc.rs lines 132-143):
`chars.next()` yields the first character, the guard checks it with
`is_alphanumeric`, checks `id.len() > 1`, and checks the remaining
characters with `chars.all(|c| c.is_alphanumeric() || ['.', '-', '_'].contains(&c))`. -/
def verify_cid_valid (isAlnum : Char → Bool) (id : List Char) : Bool :=
  match id with
  | first :: rest =>
    isAlnum first && decide (1 < rustStrLen id)
      && rest.all (fun c => isAlnum c || (['.', '-', '_'] : List Char).contains c)
  | [] => false

/-- Embedding of `verify_cid` (rpc.rs lines 131-149): `match valid { true
=> Ok(()), false => Err(anyhow!("invalid container ID: {:?}", id)) }`. -/
def verify_cid (isAlnum : Char → Bool) (id : List Char) : Except VerifyErr Unit :=
  match verify_cid_valid isAlnum id with
  | true => .ok ()
  | false => .error (.invalidContainerId id)

/-- Success of `verify_cid` is exactly truth of its `valid` boolean. -/
theorem verify_cid_ok_iff (isAlnum : Char → Bool) (id : List Char) :
    verify_cid isAlnum id = .ok () ↔ verify_cid_valid isAlnum id = true := by
  unfold verify_cid
  cases h : verify_cid_valid isAlnum id <;> simp

/-! ## OCI process spec merging (`merge_oci_process`, rpc.rs lines 152-162)

The Rust `oci::Process` structure has further fields (console_size,
user, capabilities, rlimits, selinux_label, ...) that the source
function never touches; the embedding keeps a representative sample of
them to state that they are unchanged. -/

/-- Embedding of `oci::Process`, restricted to the fields `merge_oci_process`
reads or writes plus a representative sample of untouched fields. -/
structure OciProcess where
  args : List (List Char)
  cwd : List Char
  env : List (List Char)
  terminal : Bool
  noNewPrivileges : Bool
  apparmorProfile : List Char
  oomScoreAdj : Option Int
deriving DecidableEq

/-- Embedding of `merge_oci_process` (rpc.rs lines 152-162): args appended
into an empty target from a non-empty source, cwd copied into an empty
target from a non-empty source, env always appended. -/
def merge_oci_process (target source : OciProcess) : OciProcess :=
  let t1 :=
    if target.args.isEmpty && !source.args.isEmpty then
      { target with args := target.args ++ source.args }
    else target
  let t2 :=
    if t1.cwd.isEmpty && !source.cwd.isEmpty then
      { t1 with cwd := source.cwd }
    else t1
  { t2 with env := t2.env ++ source.env }

/-! ### Claims C2 and C9 -/

/-- Claim C2: for every string, container-ID verification succeeds iff the
string is at least 2 (bytes) long, its first character is alphanumeric, and
every subsequent character is alphanumeric or one of `.`, `-`, `_`;
otherwise it returns the validation error carrying the offending id.  The
statement is universally quantified over the alphanumeric predicate, which
is used identically by the code and by the specification side. -/
theorem claim_C2 (isAlnum : Char → Bool) (id : List Char) :
    (verify_cid isAlnum id = .ok () ↔
      2 ≤ rustStrLen id ∧
        ∃ first rest, id = first :: rest ∧ isAlnum first = true ∧
          ∀ c ∈ rest, isAlnum c = true ∨ c = '.' ∨ c = '-' ∨ c = '_') ∧
    (verify_cid isAlnum id ≠ .ok () →
      verify_cid isAlnum id = .error (.invalidContainerId id)) := by
  constructor
  · rw [verify_cid_ok_iff]
    cases id with
    | nil =>
      constructor
      · intro h; cases h
      · rintro ⟨-, f, r, heq, -⟩; cases heq
    | cons f r =>
      simp only [verify_cid_valid, Bool.and_eq_true, List.all_eq_true, decide_eq_true_eq]
      constructor
      · rintro ⟨⟨h1, h2⟩, h3⟩
        refine ⟨by omega, f, r, rfl, h1, ?_⟩
        intro c hc
        have h4 := h3 c hc
        revert h4
        simp
      · rintro ⟨hlen, f', r', heq, h1, h2⟩
        injection heq with hf hr
        subst hf; subst hr
        refine ⟨⟨h1, by omega⟩, ?_⟩
        intro c hc
        have h4 := h2 c hc
        revert h4
        simp
  · intro h
    unfold verify_cid at h ⊢
    cases hb : verify_cid_valid isAlnum id with
    | true => rw [hb] at h; exact absurd rfl h
    | false => rfl

/-- Claim C2 witness: the id `"ab"` (with the ASCII alphanumeric predicate)
is accepted. -/
theorem claim_C2_witness :
    verify_cid (fun c => c.isAlphanum) ['a', 'b'] = .ok () :=
  (claim_C2 (fun c => c.isAlphanum) ['a', 'b']).1.mpr
    ⟨by decide, 'a', ['b'], rfl, by decide, by decide⟩

/-- Claim C9: merging an image-bundle OCI process spec appends the source
env to the target env, copies args only when the target args are empty and
the source args non-empty, copies cwd only when the target cwd is empty and
the source cwd non-empty, and leaves every other target field unchanged. -/
theorem claim_C9 (target source : OciProcess) :
    (merge_oci_process target source).env = target.env ++ source.env ∧
    (merge_oci_process target source).args =
      (if target.args.isEmpty && !source.args.isEmpty then source.args else target.args) ∧
    (merge_oci_process target source).cwd =
      (if target.cwd.isEmpty && !source.cwd.isEmpty then source.cwd else target.cwd) ∧
    (merge_oci_process target source).terminal = target.terminal ∧
    (merge_oci_process target source).noNewPrivileges = target.noNewPrivileges ∧
    (merge_oci_process target source).apparmorProfile = target.apparmorProfile ∧
    (merge_oci_process target source).oomScoreAdj = target.oomScoreAdj := by
  by_cases h1 : target.args = [] <;> by_cases h2 : source.args = [] <;>
    by_cases h3 : target.cwd = [] <;> by_cases h4 : source.cwd = [] <;>
      simp [merge_oci_process, h1, h2, h3, h4]

/-! ## WaitProcess finalization (`do_wait_process`, rpc.rs lines 544-576)

After the exit-change receiver reports the exit, `do_wait_process`
re-acquires the registry lock and looks the process up by its captured
pid.  If found it reaps: closes the stream descriptors, reads
`exit_code`, broadcasts it to every registered watcher and removes the
table entry.  If not found (another call already reaped), it receives
the exit code from the watcher channel this call registered earlier
(`exit_recv.recv().await`), failing if that channel closed without a
value.  The channel outcome is the `recvd` parameter below. -/

/-- Embedding of a `rustjail::process::Process` entry of a container's
process table, restricted to what `do_wait_process` finalization reads. -/
structure WaitProc where
  pid : Int
  exit_code : Int
deriving DecidableEq

/-- Error value standing for `anyhow!("Failed to receive exit code")`. -/
inductive WaitErr
  | recvFailed
deriving DecidableEq

/-- `ctr.processes.get_mut(&pid)` on a process table embedded as an
association list. -/
def lookupProc (procs : List (Int × WaitProc)) (pid : Int) : Option WaitProc :=
  (procs.find? (fun kv => kv.1 == pid)).map (fun kv => kv.2)

/-- `ctr.processes.remove(&pid)`. -/
def removeProc (procs : List (Int × WaitProc)) (pid : Int) : List (Int × WaitProc) :=
  procs.filter (fun kv => kv.1 != pid)

/-- Embedding of the post-lock section of `do_wait_process` (rpc.rs lines
549-576).  Returns the response status together with the container's
process table after the call.  `recvd` is the value obtained from this
call's own previously registered watcher channel: `some v` if the channel
delivered `v`, `none` if it closed without a value.  Stream cleanup and the
broadcast to the other watchers have no effect on the table and are
modelled in the `WStep` relation below. -/
def do_wait_finalize (procs : List (Int × WaitProc)) (pid : Int) (recvd : Option Int) :
    Except WaitErr (Int × List (Int × WaitProc)) :=
  match lookupProc procs pid with
  | some p => .ok (p.exit_code, removeProc procs pid)
  | none =>
    match recvd with
    | some v => .ok (v, procs)
    | none => .error .recvFailed

/-! ## Stream reads (`read_stream` rpc.rs lines 1600-1612 and
`do_read_stream` rpc.rs lines 608-655)

`read_stream` allocates a buffer of `l` zero bytes, performs exactly one
`read` into it, truncates to the returned length, and maps a zero-length
read to the error `"read meet eof"`.  The single read call is embedded by
the `chunk` parameter: the bytes the underlying descriptor yields for this
one call (an `l`-byte buffer receives at most `l` of them, hence
`chunk.take l`).  `do_read_stream` resolves a reader (failing with EINVAL
when the process has no suitable stream) and races the terminal-hangup
notifier against the single read; `hangupFirst` records which side of the
`tokio::select!` fired first. -/

/-- Errors of the read path: `anyhow!(nix::Error::EINVAL)` when no reader
can be resolved, `anyhow!("eof")` when the hangup notifier fires first, and
`anyhow!("read meet eof")` for a zero-byte read. -/
inductive ReadErr
  | einval
  | hangupEof
  | readEof
deriving DecidableEq

/-- Embedding of `read_stream` (rpc.rs lines 1600-1612). -/
def read_stream (l : Nat) (chunk : List Nat) : Except ReadErr (List Nat) :=
  let content := chunk.take l
  if content.length = 0 then .error .readEof
  else .ok content

/-- Embedding of `do_read_stream` (rpc.rs lines 608-655) after reader
resolution: `readerOk` is whether a reader was resolved, `hangupFirst`
whether the terminal-exit notifier won the select. -/
def do_read_stream (readerOk : Bool) (hangupFirst : Bool) (l : Nat) (chunk : List Nat) :
    Except ReadErr (List Nat) :=
  if readerOk = false then .error .einval
  else if hangupFirst then .error .hangupEof
  else read_stream l chunk

/-! ### Claims C4 and C8 -/

/-- Claim C4: when, after re-acquiring the registry lock, the pid is no
longer in the container's process table, `do_wait_process` returns the exit
code received from its own previously registered watcher channel (leaving
the table unchanged), and fails with an error if that channel closed
without delivering a value. -/
theorem claim_C4 (procs : List (Int × WaitProc)) (pid : Int) (recvd : Option Int)
    (habsent : lookupProc procs pid = none) :
    (∀ v, recvd = some v → do_wait_finalize procs pid recvd = .ok (v, procs)) ∧
    (recvd = none → do_wait_finalize procs pid recvd = .error .recvFailed) := by
  unfold do_wait_finalize
  rw [habsent]
  constructor
  · intro v hv; rw [hv]
  · intro hn; rw [hn]

/-- Claim C4 witness: with an empty process table and a channel that
delivered exit code 7, the call returns 7; with a closed channel it fails. -/
theorem claim_C4_witness :
    do_wait_finalize [] 3 (some 7) = .ok (7, []) ∧
    do_wait_finalize [] 3 none = .error .recvFailed :=
  ⟨(claim_C4 [] 3 (some 7) rfl).1 7 rfl, (claim_C4 [] 3 none rfl).2 rfl⟩

/-- Claim C8: a successful ReadStdout/ReadStderr response carries at most
`maxLen` bytes, all obtained from the one read call (a prefix of the bytes
that single read yields — never accumulated across reads), and is never
empty; a zero-byte read is reported as the explicit end-of-file error, not
as a successful empty response. -/
theorem claim_C8 (l : Nat) (chunk : List Nat) :
    (∀ bs, do_read_stream true false l chunk = .ok bs →
      bs = chunk.take l ∧ bs.length ≤ l ∧ bs ≠ []) ∧
    (chunk.take l = [] → do_read_stream true false l chunk = .error .readEof) := by
  have hred : do_read_stream true false l chunk =
      if (chunk.take l).length = 0 then .error .readEof else .ok (chunk.take l) := rfl
  constructor
  · intro bs hbs
    rw [hred] at hbs
    by_cases h0 : (chunk.take l).length = 0
    · rw [if_pos h0] at hbs; cases hbs
    · rw [if_neg h0] at hbs
      injection hbs with hbs'
      subst hbs'
      refine ⟨rfl, List.length_take_le _ _, ?_⟩
      intro hempty
      rw [hempty] at h0
      exact h0 rfl
  · intro hempty
    rw [hred, hempty]
    rfl

/-- Claim C8 witness: a 2-byte read against maxLen 3 returns exactly those
2 bytes, and a zero-byte read against maxLen 3 is the end-of-file error. -/
theorem claim_C8_witness :
    (([5, 6] : List Nat) = List.take 3 [5, 6] ∧ List.length ([5, 6] : List Nat) ≤ 3 ∧
      ([5, 6] : List Nat) ≠ []) ∧
    do_read_stream true false 3 [] = .error .readEof :=
  ⟨(claim_C8 3 [5, 6]).1 [5, 6] rfl, (claim_C8 3 []).2 rfl⟩

/-! ## Signal delivery (`do_signal_process` rpc.rs lines 409-478 and
`is_signal_handled` rpc.rs lines 1712-1755)

`is_signal_handled(pid, signum)` reads `/proc/<pid>/status`; the file's
lines are the `status` parameter below (`none` models a failed open, in
which case the source returns `false`).  It scans for the first line
starting with `"SigCgt:"`, splits that line on `':'`, requires exactly
two pieces, parses the second piece with `u64::from_str_radix(_, 16)`,
and tests the bit `1 << (signum - 1)` of the parsed mask.

`do_signal_process` looks the process up (`find_container_process`,
result supplied as `procLookup`), escalates SIGTERM to SIGKILL for an
unhandled-SIGTERM init process, signals that process (`signalOk` gives
the kernel's answer per (pid, signal)), and, when the exec id is empty,
freezes the container cgroup (failure logged only), enumerates the
cgroup pids (`get_pids`, whose failure aborts the call), `kill`s each
pid (failures logged only), and thaws the cgroup (failure logged only).
The returned event trace records, in order, each delivery attempt with
its outcome and the successful freeze/thaw transitions. -/

/-- Value of one hexadecimal digit character, as accepted by Rust's
`u64::from_str_radix(_, 16)`. -/
def hexDigit? (c : Char) : Option Nat :=
  if '0' ≤ c ∧ c ≤ '9' then some (c.toNat - '0'.toNat)
  else if 'a' ≤ c ∧ c ≤ 'f' then some (c.toNat - 'a'.toNat + 10)
  else if 'A' ≤ c ∧ c ≤ 'F' then some (c.toNat - 'A'.toNat + 10)
  else none

/-- Accumulated value of a hex digit sequence; `none` on the first
non-digit. -/
def hexDigitsVal (l : List Char) : Option Nat :=
  l.foldl (fun acc c =>
    match acc, hexDigit? c with
    | some a, some d => some (16 * a + d)
    | _, _ => none) (some 0)

/-- Embedding of `u64::from_str_radix(s, 16)`: an optional leading `'+'`,
then a non-empty run of hex digits, with failure on overflow past
`u64::MAX` (Rust fails at the first overflowing step of its fold; since the
accumulated value only grows, that is equivalent to the final-value bound
checked here). -/
def from_str_radix_16 (s : List Char) : Option Nat :=
  let digits :=
    match s with
    | '+' :: rest => rest
    | _ => s
  match digits with
  | [] => none
  | _ =>
    match hexDigitsVal digits with
    | none => none
    | some v => if v < 2 ^ 64 then some v else none

/-- Embedding of Rust `str::split(':')`: the pieces between colons,
including empty ones. -/
def splitOnColon : List Char → List (List Char)
  | [] => [[]]
  | c :: rest =>
    if c = ':' then [] :: splitOnColon rest
    else
      match splitOnColon rest with
      | [] => [[c]]
      | h :: t => (c :: h) :: t

/-- Embedding of Rust `str::starts_with` on character lists (pattern
first). -/
def startsWithChars : List Char → List Char → Bool
  | [], _ => true
  | _ :: _, [] => false
  | p :: ps, c :: cs => p == c && startsWithChars ps cs

/-- The literal `"SigCgt:"` scanned for in `/proc/<pid>/status`. -/
def sigCgtTag : List Char := ['S', 'i', 'g', 'C', 'g', 't', ':']

/-- Per-line body of `is_signal_handled` (rpc.rs lines 1736-1752): split on
`':'`, require exactly two pieces, parse piece 1 as hex, test
`(sig_cgt_mask & sig_mask) == sig_mask`.  Any parse failure yields
`false`. -/
def checkSigCgtLine (line : List Char) (sigMask : Nat) : Bool :=
  match splitOnColon line with
  | [_, sigCgtStr] =>
    match from_str_radix_16 sigCgtStr with
    | none => false
    | some sigCgtMask => (sigCgtMask &&& sigMask) == sigMask
  | _ => false

/-- Line scan of `is_signal_handled`: the first line starting with
`"SigCgt:"` decides; no such line yields `false`. -/
def is_signal_handled_lines (lines : List (List Char)) (sigMask : Nat) : Bool :=
  match lines with
  | [] => false
  | line :: rest =>
    match startsWithChars sigCgtTag line with
    | true => checkSigCgtLine line sigMask
    | false => is_signal_handled_lines rest sigMask

/-- Embedding of `is_signal_handled` (rpc.rs lines 1712-1755) over the
lines of the process's `/proc/<pid>/status` file; `none` models a failed
open.  `sig_mask = 1u64 << (signum - 1)`. -/
def is_signal_handled (status : Option (List (List Char))) (signum : Nat) : Bool :=
  match status with
  | none => false
  | some lines => is_signal_handled_lines lines (1 <<< (signum - 1))

/-- `libc::SIGTERM`. -/
def SIGTERM : Int := 15

/-- `libc::SIGKILL`. -/
def SIGKILL : Int := 9

/-- The signal actually passed to `p.signal` after the escalation check of
rpc.rs lines 424-430. -/
def select_signal (isInit : Bool) (sig : Int) (status : Option (List (List Char))) : Int :=
  if isInit && sig == SIGTERM && !(is_signal_handled status sig.toNat) then SIGKILL
  else sig

/-- The process entry returned by `find_container_process`, restricted to
the fields `do_signal_process` reads. -/
structure SigProc where
  pid : Int
  init : Bool
deriving DecidableEq

/-- External environment of one `do_signal_process` call: the lookup
result, the process's status file, the kernel's per-(pid, signal) delivery
outcomes, the freeze/thaw outcomes and the cgroup pid enumeration. -/
structure SigEnv where
  procLookup : Option SigProc
  status : Option (List (List Char))
  signalOk : Int → Int → Bool
  freezeOk : Bool
  thawOk : Bool
  pids : Option (List Int)

/-- Observable events of a `do_signal_process` call. -/
inductive SigEvent
  | attempted (pid : Int) (sig : Int) (ok : Bool)
  | froze
  | thawed
deriving DecidableEq

/-- Errors of `do_signal_process`: a failed `find_container_process`, a
failed `p.signal(sig)?`, or a failed `get_pids?`. -/
inductive SigErr
  | invalidProcess
  | signalFailed
  | getPidsFailed
deriving DecidableEq

/-- Embedding of `do_signal_process` (rpc.rs lines 409-478), returning the
event trace of a successful call.  Failures of freeze, thaw and of the
per-pid `kill` are logged by the source and do not fail the call; a
failed freeze or thaw simply leaves no transition event. -/
def do_signal_process (env : SigEnv) (eidEmpty : Bool) (sig : Int) :
    Except SigErr (List SigEvent) :=
  match env.procLookup with
  | none => .error .invalidProcess
  | some p =>
    let sigd := select_signal p.init sig env.status
    if env.signalOk p.pid sigd = false then .error .signalFailed
    else if eidEmpty then
      match env.pids with
      | none => .error .getPidsFailed
      | some pids =>
        .ok ([SigEvent.attempted p.pid sigd true]
          ++ (if env.freezeOk then [SigEvent.froze] else [])
          ++ pids.map (fun q => SigEvent.attempted q sigd (env.signalOk q sigd))
          ++ (if env.thawOk then [SigEvent.thawed] else []))
    else .ok [SigEvent.attempted p.pid sigd true]

/-! ### Parsing lemmas for `is_signal_handled` -/

/-- A status file whose first `"SigCgt:"` line records the hex mask `m`. -/
def SigCgtRecorded (lines : List (List Char)) (hexStr : List Char) (m : Nat) : Prop :=
  (∃ pre post, lines = pre ++ (sigCgtTag ++ hexStr) :: post ∧
    ∀ l ∈ pre, startsWithChars sigCgtTag l = false) ∧
  ':' ∉ hexStr ∧ from_str_radix_16 hexStr = some m

theorem startsWithChars_append (p s : List Char) : startsWithChars p (p ++ s) = true := by
  induction p with
  | nil => rfl
  | cons c cs ih => simp [startsWithChars, ih]

theorem splitOnColon_eq_single (b : List Char) (hb : ':' ∉ b) : splitOnColon b = [b] := by
  induction b with
  | nil => rfl
  | cons c cs ih =>
    have hc : ¬c = ':' := fun h => hb (by rw [h]; exact List.mem_cons_self _ _)
    have hcs : ':' ∉ cs := fun h => hb (List.mem_cons_of_mem _ h)
    simp only [splitOnColon]
    rw [if_neg hc, ih hcs]

theorem splitOnColon_append (a b : List Char) (ha : ':' ∉ a) :
    splitOnColon (a ++ ':' :: b) = a :: splitOnColon b := by
  induction a with
  | nil => simp [splitOnColon]
  | cons c cs ih =>
    have hc : ¬c = ':' := fun h => ha (by rw [h]; exact List.mem_cons_self _ _)
    have hcs : ':' ∉ cs := fun h => ha (List.mem_cons_of_mem _ h)
    simp only [List.cons_append, splitOnColon, List.append_eq]
    rw [if_neg hc, ih hcs]

theorem checkSigCgtLine_eq (hexStr : List Char) (m mask : Nat)
    (hcol : ':' ∉ hexStr) (hparse : from_str_radix_16 hexStr = some m) :
    checkSigCgtLine (sigCgtTag ++ hexStr) mask = ((m &&& mask) == mask) := by
  have htag : sigCgtTag ++ hexStr = ['S', 'i', 'g', 'C', 'g', 't'] ++ ':' :: hexStr := rfl
  have hsplit : splitOnColon (sigCgtTag ++ hexStr)
      = [['S', 'i', 'g', 'C', 'g', 't'], hexStr] := by
    rw [htag, splitOnColon_append _ _ (by decide), splitOnColon_eq_single _ hcol]
  simp only [checkSigCgtLine, hsplit, hparse]

theorem is_signal_handled_lines_recorded (pre post : List (List Char))
    (hexStr : List Char) (m mask : Nat)
    (hpre : ∀ l ∈ pre, startsWithChars sigCgtTag l = false)
    (hcol : ':' ∉ hexStr) (hparse : from_str_radix_16 hexStr = some m) :
    is_signal_handled_lines (pre ++ (sigCgtTag ++ hexStr) :: post) mask
      = ((m &&& mask) == mask) := by
  induction pre with
  | nil =>
    simp only [List.nil_append, is_signal_handled_lines]
    rw [startsWithChars_append]
    exact checkSigCgtLine_eq hexStr m mask hcol hparse
  | cons l ls ih =>
    simp only [List.cons_append, is_signal_handled_lines]
    rw [hpre l (List.mem_cons_self _ _)]
    exact ih fun x hx => hpre x (List.mem_cons_of_mem _ hx)

/-- On a well-formed status file recording mask `m`, `is_signal_handled`
is exactly the bit test `(m & (1 << (signum - 1))) == (1 << (signum - 1))`. -/
theorem is_signal_handled_recorded (lines : List (List Char)) (hexStr : List Char)
    (m signum : Nat) (hrec : SigCgtRecorded lines hexStr m) :
    is_signal_handled (some lines) signum
      = ((m &&& (1 <<< (signum - 1))) == (1 <<< (signum - 1))) := by
  obtain ⟨⟨pre, post, rfl, hpre⟩, hcol, hparse⟩ := hrec
  exact is_signal_handled_lines_recorded pre post hexStr m _ hpre hcol hparse

/-- The escalation decision, phrased over the recorded mask. -/
theorem select_signal_recorded (isInit : Bool) (sig : Int) (lines : List (List Char))
    (hexStr : List Char) (m : Nat) (hrec : SigCgtRecorded lines hexStr m) :
    select_signal isInit sig (some lines)
      = if isInit = true ∧ sig = SIGTERM ∧ (m &&& (1 <<< 14)) ≠ (1 <<< 14) then SIGKILL
        else sig := by
  unfold select_signal
  by_cases hsig : sig = SIGTERM
  · subst hsig
    have h15 : (SIGTERM : Int).toNat = 15 := rfl
    rw [h15, is_signal_handled_recorded lines hexStr m 15 hrec]
    cases hinit : isInit
    · simp
    · by_cases hm : (m &&& (1 <<< 14)) = (1 <<< 14)
      · simp [hm]
      · simp [hm]
  · have hbeq : (sig == SIGTERM) = false := by
      simp [hsig]
    simp [hbeq, hsig]

/-- A `do_signal_process` call naming a specific process (non-empty exec
id) that passes lookup and whose signal delivery succeeds returns the
single delivery attempt with the selected signal. -/
theorem do_signal_process_single (env : SigEnv) (p : SigProc) (sig : Int)
    (hp : env.procLookup = some p)
    (hok : env.signalOk p.pid (select_signal p.init sig env.status) = true) :
    do_signal_process env false sig
      = .ok [SigEvent.attempted p.pid (select_signal p.init sig env.status) true] := by
  unfold do_signal_process
  rw [hp]
  simp only [hok]
  rfl

/-! ### Claims C5 and C6 -/

/-- Claim C6: for SignalProcess naming a specific process whose status file
records the signal-catch mask `m`: if the process is the container's init
process, the requested signal is SIGTERM, and bit `1 << (SIGTERM - 1)` of
`m` is clear (SIGTERM not handled), then SIGKILL is delivered to the
process instead; in every other case the requested signal is delivered
unchanged. -/
theorem claim_C6 (env : SigEnv) (p : SigProc) (sig : Int) (lines : List (List Char))
    (hexStr : List Char) (m : Nat)
    (hp : env.procLookup = some p) (hst : env.status = some lines)
    (hrec : SigCgtRecorded lines hexStr m)
    (hok : env.signalOk p.pid (select_signal p.init sig env.status) = true) :
    (p.init = true ∧ sig = SIGTERM ∧ (m &&& (1 <<< 14)) ≠ (1 <<< 14) →
      do_signal_process env false sig = .ok [SigEvent.attempted p.pid SIGKILL true]) ∧
    (¬(p.init = true ∧ sig = SIGTERM ∧ (m &&& (1 <<< 14)) ≠ (1 <<< 14)) →
      do_signal_process env false sig = .ok [SigEvent.attempted p.pid sig true]) := by
  have hnamed := do_signal_process_single env p sig hp hok
  have hsel : select_signal p.init sig env.status
      = if p.init = true ∧ sig = SIGTERM ∧ (m &&& (1 <<< 14)) ≠ (1 <<< 14) then SIGKILL
        else sig := by
    rw [hst]
    exact select_signal_recorded p.init sig lines hexStr m hrec
  constructor
  · intro hcond
    rw [hnamed, hsel, if_pos hcond]
  · intro hcond
    rw [hnamed, hsel, if_neg hcond]

/-- Concrete status file for the C6 witness: a non-SigCgt line followed by
`SigCgt:` with an all-zero mask. -/
def hexZeros : List Char :=
  ['0', '0', '0', '0', '0', '0', '0', '0', '0', '0', '0', '0', '0', '0', '0', '0']

/-- Status-file lines used by the C6 witness. -/
def statusLinesC6 : List (List Char) :=
  [['N', 'a', 'm', 'e', ':', 'x'], sigCgtTag ++ hexZeros]

/-- Concrete environment for the C6 witness: init process 42, SIGTERM not
caught. -/
def sigEnvC6 : SigEnv :=
  { procLookup := some ⟨42, true⟩, status := some statusLinesC6,
    signalOk := fun _ _ => true, freezeOk := true, thawOk := true,
    pids := some [] }

/-- Claim C6 witness: SIGTERM to init pid 42 whose SigCgt mask is zero is
escalated to SIGKILL. -/
theorem claim_C6_witness :
    do_signal_process sigEnvC6 false 15 = .ok [SigEvent.attempted 42 9 true] :=
  (claim_C6 sigEnvC6 ⟨42, true⟩ 15 statusLinesC6 hexZeros 0 rfl rfl
    ⟨⟨[['N', 'a', 'm', 'e', ':', 'x']], [], rfl, by decide⟩, by decide, by decide⟩
    rfl).1 (by refine ⟨rfl, rfl, ?_⟩; decide)

/-- Claim C5: for SignalProcess with an empty exec id whose lookup, initial
delivery and pid enumeration succeed, the call returns success for every
freeze outcome, every thaw outcome and every combination of per-pid
delivery outcomes; its trace freezes the cgroup (when freezing succeeds)
before the per-pid deliveries and thaws it after (when thawing succeeds),
and every enumerated pid receives a delivery attempt. -/
theorem claim_C5 (env : SigEnv) (p : SigProc) (pids : List Int) (sig : Int)
    (hp : env.procLookup = some p) (hpids : env.pids = some pids)
    (hok : env.signalOk p.pid (select_signal p.init sig env.status) = true) :
    ∃ tr, do_signal_process env true sig = .ok tr ∧
      tr = [SigEvent.attempted p.pid (select_signal p.init sig env.status) true]
          ++ (if env.freezeOk then [SigEvent.froze] else [])
          ++ pids.map (fun q => SigEvent.attempted q (select_signal p.init sig env.status)
                (env.signalOk q (select_signal p.init sig env.status)))
          ++ (if env.thawOk then [SigEvent.thawed] else []) ∧
      ∀ q ∈ pids, SigEvent.attempted q (select_signal p.init sig env.status)
          (env.signalOk q (select_signal p.init sig env.status)) ∈ tr := by
  refine ⟨_, ?_, rfl, ?_⟩
  · unfold do_signal_process
    rw [hp]
    simp only [hok, hpids]
    rfl
  · intro q hq
    simp only [List.mem_append]
    exact Or.inl (Or.inr (List.mem_map_of_mem _ hq))

/-- Concrete environment for the C5 witness: non-init process 5, cgroup
pids 10, 11, 12 of which pid 11 (already exited) cannot be signalled. -/
def sigEnvC5 : SigEnv :=
  { procLookup := some ⟨5, false⟩, status := none,
    signalOk := fun q _ => q != 11, freezeOk := true, thawOk := true,
    pids := some [10, 11, 12] }

/-- Claim C5 witness: signal-all over pids 10, 11, 12 with pid 11 already
exited freezes, attempts all three pids, thaws and succeeds. -/
theorem claim_C5_witness :
    ∃ tr, do_signal_process sigEnvC5 true 15 = .ok tr ∧
      tr = [SigEvent.attempted 5 (select_signal false 15 none) true]
          ++ [SigEvent.froze]
          ++ ([10, 11, 12] : List Int).map
              (fun q => SigEvent.attempted q (select_signal false 15 none) (q != 11))
          ++ [SigEvent.thawed] ∧
      ∀ q ∈ ([10, 11, 12] : List Int),
        SigEvent.attempted q (select_signal false 15 none) (q != 11) ∈ tr :=
  claim_C5 sigEnvC5 ⟨5, false⟩ [10, 11, 12] 15 rfl rfl rfl

/-! ## RemoveContainer (`do_remove_container`, rpc.rs lines 299-375)

The registry state relevant to removal: the container key set of
`sandbox.containers`, the `sandbox.container_mounts` map and the key set
of `sandbox.storages`.

With `timeout == 0` the handler synchronously destroys the container
(error if the id is unknown) and then runs `remove_container_resources`.
With `timeout > 0` it spawns a task that, only if the container exists,
destroys it (panicking via `.unwrap()` on destroy failure, which
surfaces as a `JoinError`) and sends on a oneshot channel; the handler
races `tokio::time::timeout(deadline, rx)` — note that the receiver also
resolves (with a closed-channel error) as soon as the task ends having
dropped the sender — then checks `handle.await` and finally runs
`remove_container_resources`.  `timerFirst` is true iff the deadline
elapsed before the receiver resolved; `destroyOk` is the container
runtime's destroy outcome. -/

/-- Errors of `do_remove_container`: `nix::Error::ETIME`,
`nix::Error::UnknownErrno`, `anyhow!("Invalid container id")`, and a
propagated destroy failure of the synchronous path. -/
inductive RemoveErr
  | etime
  | unknownErrno
  | invalidContainerId
  | destroyFailed
deriving DecidableEq

/-- Registry state touched by container removal: container ids,
per-container mount ids, and mounted storage ids. -/
structure SandboxReg where
  containers : List (List Char)
  container_mounts : List (List Char × List (List Char))
  storages : List (List Char)
deriving DecidableEq

/-- `sandbox.container_mounts.get(&cid)`. -/
def lookupMounts (s : SandboxReg) (cid : List Char) : Option (List (List Char)) :=
  (s.container_mounts.find? (fun kv => kv.1 == cid)).map (fun kv => kv.2)

/-- Modelled from the spec: `Sandbox::unset_and_remove_sandbox_storage`
(defined in `sandbox.rs`, which is not part of the given source) —
"release the container's mounts": the storage keyed by the mount id is
released and removed from the registry. -/
def unset_and_remove_sandbox_storage (storages : List (List Char)) (m : List Char) :
    List (List Char) :=
  storages.filter (fun k => k != m)

/-- Embedding of the `remove_container_resources` closure (rpc.rs lines
307-325): collect the container's mounts that are present in
`sandbox.storages`, release each, then remove the container's
`container_mounts` entry and its `containers` entry. -/
def remove_container_resources (s : SandboxReg) (cid : List Char) : SandboxReg :=
  let cmounts := ((lookupMounts s cid).getD []).filter (fun m => s.storages.contains m)
  { containers := s.containers.filter (fun k => k != cid)
    container_mounts := s.container_mounts.filter (fun kv => kv.1 != cid)
    storages := cmounts.foldl unset_and_remove_sandbox_storage s.storages }

/-- Outcome flags of the spawned destroy task (rpc.rs lines 349-356):
whether it sent on the completion channel and whether it panicked (the
`.unwrap()` on a failed destroy).  When the container id is unknown the
task does neither and simply drops the sender. -/
def destroy_task (s : SandboxReg) (cid : List Char) (destroyOk : Bool) : Bool × Bool :=
  if s.containers.contains cid then
    if destroyOk then (true, false) else (false, true)
  else (false, false)

/-- Embedding of the `timeout != 0` path of `do_remove_container`
(rpc.rs lines 344-374). -/
def do_remove_container_timed (s : SandboxReg) (cid : List Char)
    (destroyOk timerFirst : Bool) : Except RemoveErr SandboxReg :=
  let r := destroy_task s cid destroyOk
  if timerFirst then .error .etime
  else if r.2 then .error .unknownErrno
  else .ok (remove_container_resources s cid)

/-- Embedding of the `timeout == 0` path of `do_remove_container`
(rpc.rs lines 327-342). -/
def do_remove_container_sync (s : SandboxReg) (cid : List Char) (destroyOk : Bool) :
    Except RemoveErr SandboxReg :=
  if s.containers.contains cid then
    if destroyOk then .ok (remove_container_resources s cid)
    else .error .destroyFailed
  else .error .invalidContainerId

/-! ### Lemmas about resource removal -/

theorem mem_foldl_unset (ms : List (List Char)) (st : List (List Char)) (x : List Char) :
    x ∈ ms.foldl unset_and_remove_sandbox_storage st ↔ x ∈ st ∧ ∀ m ∈ ms, x ≠ m := by
  induction ms generalizing st with
  | nil => simp
  | cons a tl ih =>
    simp only [List.foldl_cons, ih, unset_and_remove_sandbox_storage, List.mem_filter,
      bne_iff_ne, ne_eq, List.mem_cons]
    constructor
    · rintro ⟨⟨hx, hxa⟩, htl⟩
      exact ⟨hx, fun m hm => hm.elim (fun h => h ▸ hxa) (htl m)⟩
    · rintro ⟨hx, hall⟩
      exact ⟨⟨hx, hall a (Or.inl rfl)⟩, fun m hm => hall m (Or.inr hm)⟩

theorem remove_container_resources_containers (s : SandboxReg) (cid : List Char) :
    (remove_container_resources s cid).containers.contains cid = false := by
  simp [remove_container_resources]

theorem remove_container_resources_mounts (s : SandboxReg) (cid : List Char) :
    lookupMounts (remove_container_resources s cid) cid = none := by
  simp only [remove_container_resources, lookupMounts]
  rw [Option.map_eq_none', List.find?_eq_none]
  intro kv hkv
  rw [List.mem_filter] at hkv
  have h2 := hkv.2
  simp only [bne_iff_ne, ne_eq] at h2
  simp [h2]

theorem remove_container_resources_storages (s : SandboxReg) (cid : List Char)
    (m : List Char) (hm : m ∈ (lookupMounts s cid).getD [])
    (hs : m ∈ s.storages) :
    m ∉ (remove_container_resources s cid).storages := by
  unfold remove_container_resources
  intro hmem
  rw [mem_foldl_unset] at hmem
  exact hmem.2 m (List.mem_filter.mpr ⟨hm, by simpa using hs⟩) rfl

/-! ### Claims C3 and C10 -/

/-- Claim C3: for RemoveContainer on a present container with timeout > 0:
if the deadline fires before the destroy task's completion signal the call
fails with the Timeout error (the functional embedding computes the task's
outcome independently of `timerFirst` — the task is not cancelled); if the
task itself fails the call fails with the Unknown error; on success the
call releases the container's mounts and evicts the container and its
mount records from the registry. -/
theorem claim_C3 (s : SandboxReg) (cid : List Char) (destroyOk timerFirst : Bool)
    (hpresent : s.containers.contains cid = true) :
    (timerFirst = true →
      do_remove_container_timed s cid destroyOk timerFirst = .error .etime) ∧
    (timerFirst = false → destroyOk = false →
      do_remove_container_timed s cid destroyOk timerFirst = .error .unknownErrno) ∧
    (timerFirst = false → destroyOk = true →
      do_remove_container_timed s cid destroyOk timerFirst
          = .ok (remove_container_resources s cid) ∧
        (remove_container_resources s cid).containers.contains cid = false ∧
        lookupMounts (remove_container_resources s cid) cid = none ∧
        ∀ m ∈ (lookupMounts s cid).getD [], m ∈ s.storages →
          m ∉ (remove_container_resources s cid).storages) := by
  refine ⟨?_, ?_, ?_⟩
  · intro ht
    subst ht
    rfl
  · intro ht hd
    subst ht; subst hd
    unfold do_remove_container_timed destroy_task
    rw [hpresent]
    rfl
  · intro ht hd
    subst ht; subst hd
    refine ⟨?_, remove_container_resources_containers s cid,
      remove_container_resources_mounts s cid,
      fun m hm hs => remove_container_resources_storages s cid m hm hs⟩
    unfold do_remove_container_timed destroy_task
    rw [hpresent]
    rfl

/-- Concrete registry for the C3 witness: one container `ab` with one
mounted storage `m1`. -/
def sandboxC3 : SandboxReg :=
  { containers := [['a', 'b']]
    container_mounts := [(['a', 'b'], [['m', '1']])]
    storages := [['m', '1']] }

/-- Claim C3 witness: a successful timed removal of `ab` returns the
registry with the container, its mount record and its storage evicted. -/
theorem claim_C3_witness :
    do_remove_container_timed sandboxC3 ['a', 'b'] true false
        = .ok (remove_container_resources sandboxC3 ['a', 'b']) ∧
      (remove_container_resources sandboxC3 ['a', 'b']).containers.contains ['a', 'b']
        = false :=
  ⟨((claim_C3 sandboxC3 ['a', 'b'] true false (by decide)).2.2 rfl rfl).1,
    ((claim_C3 sandboxC3 ['a', 'b'] true false (by decide)).2.2 rfl rfl).2.1⟩

/-- Registry with no containers, for the C10 counterexample. -/
def sandboxC10 : SandboxReg := { containers := [], container_mounts := [], storages := [] }

/-- Claim C10 counterexample: for an unknown container id with timeout > 0,
the spawned task drops the completion sender without sending, the oneshot
receiver thereby resolves at once (`tokio::time::timeout` only reports
deadline expiry, which has not occurred), and the call returns success —
not the Timeout error the claim asserts. -/
theorem claim_C10_cex :
    do_remove_container_timed sandboxC10 ['a', 'b'] true false = .ok sandboxC10 ∧
    do_remove_container_timed sandboxC10 ['a', 'b'] true false ≠ .error .etime := by
  constructor
  · rfl
  · intro h
    cases h

/-- Claim C10 (amended): for RemoveContainer with timeout > 0 on an unknown
container id, the background task completes without signalling, the
receiver resolves with a closed-channel error as soon as the sender is
dropped, and — whenever the task completes before the deadline — the
timeout race does not fire, the join succeeds, and the call returns success
after a no-op resource removal, reporting neither a Timeout nor an
unknown-container error; the timeout == 0 path instead reports the invalid
container id immediately. -/
theorem claim_C10 (s : SandboxReg) (cid : List Char) (destroyOk : Bool)
    (habsent : s.containers.contains cid = false) :
    do_remove_container_timed s cid destroyOk false
        = .ok (remove_container_resources s cid) ∧
    do_remove_container_sync s cid destroyOk = .error .invalidContainerId := by
  constructor
  · unfold do_remove_container_timed destroy_task
    rw [habsent]
    rfl
  · unfold do_remove_container_sync
    rw [habsent]
    rfl

/-- Claim C10 witness: the empty registry with container id `ab`. -/
theorem claim_C10_witness :
    do_remove_container_timed sandboxC10 ['a', 'b'] true false
        = .ok (remove_container_resources sandboxC10 ['a', 'b']) ∧
      do_remove_container_sync sandboxC10 ['a', 'b'] true = .error .invalidContainerId :=
  claim_C10 sandboxC10 ['a', 'b'] true (by decide)

/-! ## Handler status codes (rpc.rs lines 706-992)

The ttrpc status code attached to a failure, per handler.  The
`start_container` handler (rpc.rs lines 721-732) wraps every error of
`do_start_container` — including its `anyhow!("Invalid container id")`
lookup failure — as `ttrpc::Code::INTERNAL`.  The `update_container`
handler (rpc.rs lines 786-820) maps its inline lookup failure to
`ttrpc::Code::INVALID_ARGUMENT`.  The `tty_win_resize` handler (rpc.rs
lines 952-992) maps a failed `find_container_process` to
`ttrpc::Code::UNAVAILABLE` (and a missing terminal to UNAVAILABLE,
a failed ioctl to INTERNAL). -/

/-- The ttrpc status codes used by the embedded handlers. -/
inductive Code
  | internal
  | invalidArgument
  | unavailable
  | notFound
deriving DecidableEq

/-- Domain errors raised inside `do_start_container`. -/
inductive DomainErr
  | invalidContainerId
  | runtimeFailed
deriving DecidableEq

/-- Embedding of `do_start_container` (rpc.rs lines 267-297) up to the
lookup: an unknown id raises `anyhow!("Invalid container id")`;
otherwise the container runtime's exec outcome (and the OOM monitor
setup), supplied as `execResult`, decides. -/
def do_start_container (containers : List (List Char)) (cid : List Char)
    (execResult : Except DomainErr Unit) : Except DomainErr Unit :=
  if containers.contains cid then execResult
  else .error .invalidContainerId

/-- Embedding of the `start_container` handler (rpc.rs lines 721-732):
every `do_start_container` error becomes `ttrpc::Code::INTERNAL`. -/
def start_container (containers : List (List Char)) (cid : List Char)
    (execResult : Except DomainErr Unit) : Except Code Unit :=
  match do_start_container containers cid execResult with
  | .ok _ => .ok ()
  | .error _ => .error .internal

/-- Embedding of the `update_container` handler (rpc.rs lines 786-820):
an unknown id becomes `ttrpc::Code::INVALID_ARGUMENT`; with a resource
payload, a failed `ctr.set` becomes `ttrpc::Code::INTERNAL`. -/
def update_container (containers : List (List Char)) (cid : List Char)
    (hasResources setOk : Bool) : Except Code Unit :=
  if containers.contains cid then
    if hasResources then
      if setOk then .ok () else .error .internal
    else .ok ()
  else .error .invalidArgument

/-- Embedding of the `tty_win_resize` handler (rpc.rs lines 952-992):
a failed `find_container_process` becomes `ttrpc::Code::UNAVAILABLE`, a
missing terminal master becomes UNAVAILABLE (`"no tty"`), a failed ioctl
becomes INTERNAL. -/
def tty_win_resize (procFound : Bool) (termMaster : Option Int) (ioctlOk : Bool) :
    Except Code Unit :=
  if procFound then
    match termMaster with
    | some _ => if ioctlOk then .ok () else .error .internal
    | none => .error .unavailable
  else .error .unavailable

/-! ### Claim C7 -/

/-- Claim C7 counterexample: the claim says every lifecycle handler maps an
unknown container id to InvalidArgument, but `start_container` on an
unknown id fails with INTERNAL, which is not InvalidArgument. -/
theorem claim_C7_cex :
    start_container [] ['a', 'b'] (.ok ()) = .error Code.internal ∧
    Code.internal ≠ Code.invalidArgument := by
  constructor
  · rfl
  · intro h
    cases h

/-- Claim C7 (amended): a request naming an unknown container or process id
never fails with NotFound, but the status depends on the handler: handlers
performing the lookup inline, such as `update_container`, return
InvalidArgument; handlers delegating to a `do_*` helper and wrapping its
errors, such as `start_container`, return Internal; and `tty_win_resize`
returns Unavailable. -/
theorem claim_C7 (containers : List (List Char)) (cid : List Char)
    (execResult : Except DomainErr Unit) (hasResources setOk : Bool)
    (termMaster : Option Int) (ioctlOk : Bool)
    (habsent : containers.contains cid = false) :
    start_container containers cid execResult = .error Code.internal ∧
    update_container containers cid hasResources setOk = .error Code.invalidArgument ∧
    tty_win_resize false termMaster ioctlOk = .error Code.unavailable ∧
    Code.internal ≠ Code.notFound ∧
    Code.invalidArgument ≠ Code.notFound ∧
    Code.unavailable ≠ Code.notFound := by
  refine ⟨?_, ?_, rfl, by decide, by decide, by decide⟩
  · unfold start_container do_start_container
    rw [habsent]
    rfl
  · unfold update_container
    rw [habsent]
    rfl

/-- Claim C7 witness: the empty registry and container id `ab`. -/
theorem claim_C7_witness :
    start_container [] ['a', 'b'] (.ok ()) = .error Code.internal ∧
      update_container [] ['a', 'b'] true true = .error Code.invalidArgument ∧
      tty_win_resize false none true = .error Code.unavailable ∧
      Code.internal ≠ Code.notFound ∧
      Code.invalidArgument ≠ Code.notFound ∧
      Code.unavailable ≠ Code.notFound :=
  claim_C7 [] ['a', 'b'] (.ok ()) true true none true (by decide)

/-! ## Racing WaitProcess callers (`do_wait_process`, rpc.rs lines 509-576)

Interleaving model of any number of concurrent `do_wait_process` calls
on one process whose exit code cell holds `c` (the cell is write-once;
`c` is whatever the reaper reads under the lock).  Each lock-protected
section of the source is one atomic step; between steps the scheduler
interleaves callers arbitrarily:

* `register i` — caller `i` runs lines 528-536: under the lock it finds
  the process (hence the entry must still be present), pushes its fresh
  channel onto `exit_watchers` and captures the pid.
* `reap i` — caller `i` re-acquires the lock (line 544) and finds the
  pid still in the table (lines 549, 562-575): it cleans up the streams,
  reads `exit_code`, sends it to every currently registered watcher
  channel, removes the entry, and returns the exit code.
* `late i` — caller `i` re-acquires the lock but the entry is gone
  (lines 551-559): it returns whatever its own watcher channel holds,
  an error if nothing was delivered.

`delivered i` is the content of caller `i`'s watcher channel, `reaps`
counts executions of the destructive branch. -/

/-- Phase of one `do_wait_process` caller: not yet registered, watcher
registered, or returned with `some code` (`none` for the
failed-to-receive error). -/
inductive WPhase
  | idle
  | registered
  | done (result : Option Int)
deriving DecidableEq

/-- Shared state of the interleaving model. -/
structure WaitState where
  present : Bool
  delivered : Nat → Option Int
  phase : Nat → WPhase
  reaps : Nat

/-- Pointwise update of a caller's phase. -/
def setPhase (f : Nat → WPhase) (i : Nat) (v : WPhase) : Nat → WPhase :=
  fun j => if j = i then v else f j

/-- The broadcast of rpc.rs lines 568-571: every currently registered
watcher channel receives the exit code. -/
def broadcast (s : WaitState) (c : Int) : Nat → Option Int :=
  fun j => if s.phase j = WPhase.registered then some c else s.delivered j

/-- One atomic lock-protected step of some caller `i`. -/
inductive WStep (c : Int) : WaitState → WaitState → Prop
  | register (s : WaitState) (i : Nat) :
      s.present = true → s.phase i = WPhase.idle →
      WStep c s ⟨true, s.delivered, setPhase s.phase i WPhase.registered, s.reaps⟩
  | reap (s : WaitState) (i : Nat) :
      s.present = true → s.phase i = WPhase.registered →
      WStep c s ⟨false, broadcast s c, setPhase s.phase i (WPhase.done (some c)),
        s.reaps + 1⟩
  | late (s : WaitState) (i : Nat) :
      s.present = false → s.phase i = WPhase.registered →
      WStep c s ⟨false, s.delivered, setPhase s.phase i (WPhase.done (s.delivered i)),
        s.reaps⟩

/-- Initial state: process entry present, no watcher registered, empty
channels, no reap performed. -/
def wInit : WaitState := ⟨true, fun _ => none, fun _ => WPhase.idle, 0⟩

/-- States reachable by interleaved `do_wait_process` callers. -/
def WReachable (c : Int) (s : WaitState) : Prop :=
  Relation.ReflTransGen (WStep c) wInit s

/-- Inductive invariant: while the entry is present nothing has been
reaped and nobody has returned; once it is gone exactly one reap
happened, every registered watcher channel holds the exit code, and every
finished caller returned it. -/
def WInv (c : Int) (s : WaitState) : Prop :=
  (s.present = true → s.reaps = 0 ∧ ∀ i r, s.phase i ≠ WPhase.done r) ∧
  (s.present = false →
    s.reaps = 1 ∧ (∀ i, s.phase i = WPhase.registered → s.delivered i = some c) ∧
    (∀ i r, s.phase i = WPhase.done r → r = some c))

theorem winv_step {c : Int} {s t : WaitState} (hinv : WInv c s) (hst : WStep c s t) :
    WInv c t := by
  obtain ⟨hpres, habs⟩ := hinv
  cases hst with
  | register i hp hph =>
    obtain ⟨hre, hnd⟩ := hpres hp
    constructor
    · intro _
      refine ⟨hre, ?_⟩
      intro j r
      simp only [setPhase]
      by_cases hj : j = i
      · rw [if_pos hj]
        intro hcon
        cases hcon
      · rw [if_neg hj]
        exact hnd j r
    · intro hcon
      exact Bool.noConfusion hcon
  | reap i hp hph =>
    obtain ⟨hre, hnd⟩ := hpres hp
    constructor
    · intro hcon
      exact Bool.noConfusion hcon
    · intro _
      refine ⟨by rw [hre], ?_, ?_⟩
      · intro j hj
        simp only [setPhase] at hj
        by_cases hji : j = i
        · rw [if_pos hji] at hj
          cases hj
        · rw [if_neg hji] at hj
          simp only [broadcast]
          rw [if_pos hj]
      · intro j r hj
        simp only [setPhase] at hj
        by_cases hji : j = i
        · rw [if_pos hji] at hj
          injection hj with h5
          exact h5.symm
        · rw [if_neg hji] at hj
          exact absurd hj (hnd j r)
  | late i hp hph =>
    obtain ⟨h1, h2, h3⟩ := habs hp
    constructor
    · intro hcon
      exact Bool.noConfusion hcon
    · intro _
      refine ⟨h1, ?_, ?_⟩
      · intro j hj
        simp only [setPhase] at hj
        by_cases hji : j = i
        · rw [if_pos hji] at hj
          cases hj
        · rw [if_neg hji] at hj
          exact h2 j hj
      · intro j r hj
        simp only [setPhase] at hj
        by_cases hji : j = i
        · rw [if_pos hji] at hj
          injection hj with h5
          rw [← h5]
          exact h2 i hph
        · rw [if_neg hji] at hj
          exact h3 j r hj

theorem winv_reachable {c : Int} {s : WaitState} (h : WReachable c s) : WInv c s := by
  induction h with
  | refl =>
    constructor
    · intro _
      refine ⟨rfl, ?_⟩
      intro i r hcon
      cases hcon
    · intro hcon
      exact absurd hcon (by decide)
  | tail hsteps hstep ih => exact winv_step ih hstep

/-! ### Claim C1 -/

/-- Claim C1: in every reachable interleaving of any number of racing
`do_wait_process` callers on the same process, every caller that has
returned observed the identical exit code `c` (never the
failed-to-receive error), the destructive reap (stream cleanup and removal
of the process entry) was performed at most once, and every registered
caller can always take a step that returns `c` (so each caller observes
the code exactly once). -/
theorem claim_C1 (c : Int) (s : WaitState) (h : WReachable c s) :
    (∀ i r, s.phase i = WPhase.done r → r = some c) ∧
    s.reaps ≤ 1 ∧
    (∀ i, s.phase i = WPhase.registered →
      ∃ t, WStep c s t ∧ t.phase i = WPhase.done (some c)) := by
  obtain ⟨hpres, habs⟩ := winv_reachable h
  refine ⟨?_, ?_, ?_⟩
  · intro i r hdone
    cases hp : s.present with
    | true => exact absurd hdone ((hpres hp).2 i r)
    | false => exact (habs hp).2.2 i r hdone
  · cases hp : s.present with
    | true =>
      have h0 := (hpres hp).1
      omega
    | false => exact le_of_eq (habs hp).1
  · intro i hreg
    cases hp : s.present with
    | true =>
      refine ⟨_, WStep.reap s i hp hreg, ?_⟩
      simp [setPhase]
    | false =>
      refine ⟨_, WStep.late s i hp hreg, ?_⟩
      simp [setPhase, (habs hp).2.1 i hreg]

/-- Intermediate states of the two-caller witness trace: caller 0
registers, caller 1 registers, caller 1 reaps (exit code 7), caller 0
finishes from its channel. -/
def wS1 : WaitState :=
  ⟨true, wInit.delivered, setPhase wInit.phase 0 WPhase.registered, wInit.reaps⟩

/-- Second witness state: both callers registered. -/
def wS2 : WaitState :=
  ⟨true, wS1.delivered, setPhase wS1.phase 1 WPhase.registered, wS1.reaps⟩

/-- Third witness state: caller 1 performed the reap. -/
def wS3 : WaitState :=
  ⟨false, broadcast wS2 7, setPhase wS2.phase 1 (WPhase.done (some 7)), wS2.reaps + 1⟩

/-- Final witness state: caller 0 finished from its own channel. -/
def wS4 : WaitState :=
  ⟨false, wS3.delivered, setPhase wS3.phase 0 (WPhase.done (wS3.delivered 0)), wS3.reaps⟩

theorem wS4_reachable : WReachable 7 wS4 := by
  have h1 : WStep 7 wInit wS1 := WStep.register wInit 0 rfl rfl
  have h2 : WStep 7 wS1 wS2 := WStep.register wS1 1 rfl (by decide)
  have h3 : WStep 7 wS2 wS3 := WStep.reap wS2 1 rfl (by decide)
  have h4 : WStep 7 wS3 wS4 := WStep.late wS3 0 rfl (by decide)
  exact Relation.ReflTransGen.tail
    (Relation.ReflTransGen.tail
      (Relation.ReflTransGen.tail (Relation.ReflTransGen.tail Relation.ReflTransGen.refl h1)
        h2) h3) h4

/-- Claim C1 witness: after the concrete two-caller race (both register,
caller 1 reaps exit code 7, caller 0 finishes from its channel) at most one
reap happened and both callers returned 7. -/
theorem claim_C1_witness :
    wS4.reaps ≤ 1 ∧ (∀ i r, wS4.phase i = WPhase.done r → r = some 7) :=
  ⟨(claim_C1 7 wS4 wS4_reachable).2.1, (claim_C1 7 wS4 wS4_reachable).1⟩

end KataRpc
